import Mathlib

/-!
# AddressInf0DB: the refresh pipeline

A shallow embedding of `update.go` (the refresh pipeline `UpdateAsync` and the three
remote-call wrappers `createQueryRun`, `queryRunStatus`, `queryRunResults`) and of the
parts of `db.go` the pipeline uses (`AddressRecords`, `UpsertAddressRecords`,
`UpdateMaintenanceTime`).

Conventions of the embedding.

* The program is sequential state passing over a `World` (a counter of interactions with
  the outside, and the two tables of the store).  Every function returns an `Out`: its Go
  return value, the interactions and progress events it produced in order, and the world
  it leaves behind.
* Everything outside the repository is an oracle of `Stubs`, indexed by the interaction
  counter: the outcome of a remote call, whether the polling timer has fired, whether a
  storage statement fails, the wall clock.  An oracle indexed by the interaction counter
  can play any deterministic stub, stateful ones included.
* A remote call through `flipsideClient.Call(&result, ...)` ends in one of four ways
  (`Wire`): an error before anything is decoded, which leaves the result pointer as it
  was; a JSON `null` result, which sets the pointer to nil and returns no error; a result
  object, which is decoded into the object the pointer holds (a fresh one when it is
  nil) and returns no error; a result that is decoded in part, which writes the members
  it could decode and returns the error.  Pointers are `Option`s; reading a field through
  `none` is the Go run-time panic, `Res.panic`.
* `createQueryRun` and `queryRunStatus` keep one result pointer over their retries, so
  their stubs range over all four kinds.  `queryRunResultsExactPage` calls through a
  fresh pointer and returns nil with any error, so a page reply that fails while decoding
  acts like any other failure; the page replies of a stub are `Reply`s, an error or a
  result object (a JSON `null` page result is not among them).
* Go `int` is 64 bit two-complement: the page counter wraps (`wrapInt`).  Lengths and
  record counts are far from the bound and are plain integers.
* `time.Sleep` has no counterpart: only the order of interactions is modelled.
* Unbounded Go loops take a step budget; `Res.outOfFuel` says the budget ran out.
-/

namespace AddressInf0DB

/-! ## Constants of `update.go` -/

/-- The retry budget, `retryTimes = 10`. -/
def retryTimes : Nat := 10

/-- Status `Updating = iota`. -/
def Updating : Int := 0

/-- Status `Successful`. -/
def Successful : Int := 1

/-- Status `Warning`. -/
def Warning : Int := 2

/-- Status `Failed`. -/
def Failed : Int := 3

/-- The chains refreshed by a run, in order: `queriesSlice`. -/
def queriesSlice : List Nat := [1, 56, 8453]

/-- The query text per chain, `queriesMap`; a Go map yields the empty string for a
missing key. -/
def queriesMap (chainID : Nat) : String :=
  if chainID = 1 then
    "SELECT * FROM ethereum.core.dim_labels WHERE LABEL_SUBTYPE NOT IN ('general_contract', 'deposit_wallet', 'pool', 'token_contract', 'nf_token_contract') AND ADDRESS_NAME NOT IN ('coinbase');"
  else if chainID = 56 then
    "SELECT * FROM bsc.core.dim_labels WHERE LABEL_SUBTYPE NOT IN ('general_contract', 'deposit_wallet', 'pool', 'token_contract', 'nf_token_contract');"
  else if chainID = 8453 then
    "SELECT * FROM base.core.dim_labels WHERE LABEL_SUBTYPE NOT IN ('general_contract', 'deposit_wallet', 'pool', 'token_contract', 'nf_token_contract');"
  else ""

/-! ## Wire types of `update.go` -/

/-- Payload of the remote method createQueryRun. -/
structure queryRunRequest where
  ResultTTLHours : Int
  MaxAgeMinutes : Int
  Sql : String
  DataSource : String
  DataProvider : String
deriving DecidableEq, Repr

/-- The inner struct `QueryRequest` of `queryRunResponse`. -/
structure queryRequestInfo where
  ID : String
  SqlStatementID : String
  UserID : String
  QueryRunID : String
deriving DecidableEq, Repr

/-- Response of the remote method createQueryRun. -/
structure queryRunResponse where
  QueryRequest : queryRequestInfo
deriving DecidableEq, Repr

/-- Payload of the remote method getQueryRun. -/
structure queryRunStatusRequest where
  QueryRunId : String
deriving DecidableEq, Repr

/-- The inner struct `QueryRun` of `queryRunStatusResponse`. -/
structure queryRunInfo where
  State : String
deriving DecidableEq, Repr

/-- Response of the remote method getQueryRun. -/
structure queryRunStatusResponse where
  QueryRun : queryRunInfo
deriving DecidableEq, Repr

/-- The inner struct `Page` of `queryRunResultsRequest`. -/
structure pageRequest where
  Number : Int
  Size : Int
deriving DecidableEq, Repr

/-- Payload of the remote method getQueryRunResults. -/
structure queryRunResultsRequest where
  QueryRunId : String
  Format : String
  Page : pageRequest
deriving DecidableEq, Repr

/-- One result row. -/
structure queryRunResultsResponseRow where
  Address : String
  AddressName : String
  LabelType : String
  LabelSubtype : String
  Label : String
  ProjectName : String
deriving DecidableEq, Repr

/-- The inner struct `Page` of `queryRunResultsResponse`. -/
structure pageInfo where
  CurrentPageNumber : Int
  CurrentPageSize : Int
  TotalRows : Int
  TotalPages : Int
deriving DecidableEq, Repr

/-- Response of the remote method getQueryRunResults. -/
structure queryRunResultsResponse where
  Rows : List queryRunResultsResponseRow
  Page : pageInfo
deriving DecidableEq, Repr

/-! ## Store types of `db.go` -/

/-- A 20-byte account address (`common.Address`), as the number its bytes spell. -/
abbrev Address := Nat

/-- The record type `AddressRecord` of `db.go`; also a row of table `info`. -/
structure AddressRecord where
  ChainID : Nat
  Address : Address
  Name : String
  Label : String
  LabelType : String
  LabelSubtype : String
deriving DecidableEq, Repr

/-- The two tables: `info`, primary key (chainID, address), and `maintenance`, primary
key chainID. -/
structure Database where
  info : List AddressRecord
  maintenance : List (Nat × Int)
deriving DecidableEq, Repr

/-! ## Progress events -/

/-- The text of a progress event: which `fmt.Sprintf` format of `UpdateAsync` produced
it, and the arguments formatted into it. -/
inductive LogText
  | updatingChain (chainID : Nat)
  | failedCreateQueryRun (err : String) (chainID : Nat)
  | queryRunIdGot (queryRunID : String) (chainID : Nat)
  | queryRunTimeOut (queryRunID : String) (chainID : Nat)
  | queryRunDone (queryRunID : String) (chainID : Nat)
  | failedQueryRunResult (err : String) (queryRunID : String) (chainID : Nat)
  | queryRunResultsGot (rows : Int) (queryRunID : String) (chainID : Nat)
  | failedAddressRecords (err : String) (chainID : Nat)
  | failedUpsert (err : String) (chainID : Nat)
  | failedMaintenance (err : String) (chainID : Nat)
  | upToDate (chainID : Nat) (records : Int) (updates : Int)
deriving DecidableEq, Repr

/-- The event type `UpdateProgress`. -/
structure UpdateProgress where
  Status : Int
  Log : LogText
deriving DecidableEq, Repr

/-! ## The outside world -/

/-- Outcome of a remote call or storage query: a value or an error text. -/
inductive Reply (α : Type)
  | fail (err : String)
  | done (a : α)
deriving DecidableEq, Repr

/-- Outcome of one `flipsideClient.Call(&result, ...)`, for a result of type `α` whose
members are listed by a patch of type `π`. -/
inductive Wire (α π : Type)
  /-- An error before anything is decoded (transport, RPC error object, no result): the
  result pointer is left as it was. -/
  | fail (err : String)
  /-- The result is JSON `null`: the pointer is set to nil, no error. -/
  | null
  /-- The result is an object that sets every member: the pointer holds `a`, no error. -/
  | done (a : α)
  /-- The result sets the members of `p` only, the others keep what the pointed object
  had; `err` is the decoding error of a member of the wrong type, if there was one. -/
  | sparse (err : Option String) (p : π)
deriving DecidableEq, Repr

/-- A reply as the outcome of a call through a fresh pointer. -/
def Reply.wire {α : Type} : Reply α → Wire α Unit
  | .fail e => .fail e
  | .done a => .done a

/-- The members of a `QueryRequest` object that a result sets. -/
structure queryRequestInfoPatch where
  ID : Option String
  SqlStatementID : Option String
  UserID : Option String
  QueryRunID : Option String
deriving DecidableEq, Repr

/-- The members of a createQueryRun result: `none` when `queryRequest` is absent. -/
structure queryRunResponsePatch where
  QueryRequest : Option queryRequestInfoPatch
deriving DecidableEq, Repr

/-- The members of a `QueryRun` object that a result sets. -/
structure queryRunInfoPatch where
  State : Option String
deriving DecidableEq, Repr

/-- The members of a getQueryRun result: `none` when `queryRun` is absent. -/
structure queryRunStatusPatch where
  QueryRun : Option queryRunInfoPatch
deriving DecidableEq, Repr

/-- A createQueryRun result decoded into an object: members that are set overwrite. -/
def queryRunResponse.patch (old : queryRunResponse) (p : queryRunResponsePatch) :
    queryRunResponse :=
  match p.QueryRequest with
  | none => old
  | some q =>
    ⟨⟨q.ID.getD old.QueryRequest.ID, q.SqlStatementID.getD old.QueryRequest.SqlStatementID,
      q.UserID.getD old.QueryRequest.UserID, q.QueryRunID.getD old.QueryRequest.QueryRunID⟩⟩

/-- A getQueryRun result decoded into an object: members that are set overwrite. -/
def queryRunStatusResponse.patch (old : queryRunStatusResponse) (p : queryRunStatusPatch) :
    queryRunStatusResponse :=
  match p.QueryRun with
  | none => old
  | some q => ⟨⟨q.State.getD old.QueryRun.State⟩⟩

/-- Whether a reply carries a value. -/
def Reply.isDone {α : Type} : Reply α → Bool
  | .fail _ => false
  | .done _ => true

/-- Everything the pipeline does that is visible from outside, in order. -/
inductive Entry
  | progress (p : UpdateProgress)
  | rpcCreateQueryRun (req : queryRunRequest) (out : Wire queryRunResponse queryRunResponsePatch)
  | rpcGetQueryRun (req : queryRunStatusRequest)
      (out : Wire queryRunStatusResponse queryRunStatusPatch)
  | rpcGetQueryRunResults (req : queryRunResultsRequest) (out : Reply queryRunResultsResponse)
  | timer (fired : Bool)
  | dbAddressRecords (chainID : Nat) (out : Reply Int)
  | dbUpsertAddressRecords (records : List AddressRecord) (err : Option String)
  | dbUpdateMaintenanceTime (chainID : Nat) (err : Option String)
deriving DecidableEq, Repr

/-- The collaborators, as oracles indexed by the interaction counter. -/
structure Stubs where
  /-- The library function `common.HexToAddress`. -/
  HexToAddress : String → Address
  /-- Outcome of `flipsideClient.Call` for method createQueryRun. -/
  createQueryRun : Nat → queryRunRequest → Wire queryRunResponse queryRunResponsePatch
  /-- Outcome of `flipsideClient.Call` for method getQueryRun. -/
  getQueryRun : Nat → queryRunStatusRequest → Wire queryRunStatusResponse queryRunStatusPatch
  /-- Outcome of `flipsideClient.Call` for method getQueryRunResults. -/
  getQueryRunResults : Nat → queryRunResultsRequest → Reply queryRunResultsResponse
  /-- Whether the channel of `time.After(time.Minute * 5)` is ready. -/
  timeOut : Nat → Bool
  /-- Whether a storage statement fails, and with which error. -/
  sqlError : Nat → Option String
  /-- The wall clock, `time.Now().Unix()`. -/
  now : Nat → Int

/-- The state threaded through the program. -/
structure World where
  tick : Nat
  db : Database
deriving DecidableEq, Repr

/-- One more interaction happened. -/
def World.next (w : World) : World := { w with tick := w.tick + 1 }

/-- How a function call ended. -/
inductive Res (α : Type)
  | ret (a : α)
  | panic
  | outOfFuel
deriving DecidableEq, Repr

/-- What a function call produced: how it ended, what it did, the world after. -/
structure Out (α : Type) where
  res : α
  log : List Entry
  world : World

/-- Go `int` arithmetic wraps at 64 bits. -/
def wrapInt (x : Int) : Int := (x + 2 ^ 63) % 2 ^ 64 - 2 ^ 63

/-- The client method `Call(&result, method, args)` seen from the caller: the error it
returns and the result pointer afterwards.  `zero` is the object a nil pointer is given
before decoding, `patch` writes the members a result sets. -/
def rpcCall {α π : Type} (zero : α) (patch : α → π → α) (out : Wire α π)
    (result : Option α) : Option String × Option α :=
  match out with
  | .fail e => (some e, result)
  | .null => (none, none)
  | .done a => (none, some a)
  | .sparse err p => (err, some (patch (result.getD zero) p))

/-- The Go value `queryRunResponse{}`. -/
def queryRunResponse.zero : queryRunResponse := ⟨⟨"", "", "", ""⟩⟩

/-- The Go value `queryRunStatusResponse{}`. -/
def queryRunStatusResponse.zero : queryRunStatusResponse := ⟨⟨""⟩⟩

/-- The Go value `queryRunResultsResponse{}`. -/
def queryRunResultsResponse.zero : queryRunResultsResponse := ⟨[], ⟨0, 0, 0, 0⟩⟩

/-- The call of createQueryRun with the pointer `createQueryRunResponse_`. -/
def callCreateQueryRun (out : Wire queryRunResponse queryRunResponsePatch)
    (resp : Option queryRunResponse) : Option String × Option queryRunResponse :=
  rpcCall queryRunResponse.zero queryRunResponse.patch out resp

/-- The call of getQueryRun with the pointer `getQueryRunResponse_`. -/
def callGetQueryRun (out : Wire queryRunStatusResponse queryRunStatusPatch)
    (resp : Option queryRunStatusResponse) : Option String × Option queryRunStatusResponse :=
  rpcCall queryRunStatusResponse.zero queryRunStatusResponse.patch out resp

/-- The call of getQueryRunResults with the fresh pointer of
`queryRunResultsExactPage`. -/
def callGetQueryRunResults (out : Reply queryRunResultsResponse) :
    Option String × Option queryRunResultsResponse :=
  rpcCall queryRunResultsResponse.zero (fun a _ => a) out.wire none

/-! ## `createQueryRun` -/

/-- The request `createQueryRun` builds. -/
def createQueryRunRequest (query : String) : queryRunRequest :=
  { ResultTTLHours := 1, MaxAgeMinutes := 0, Sql := query,
    DataSource := "snowflake-default", DataProvider := "flipside" }

/-- The loop `for retry := 0; retry < retryTimes; retry++` of `createQueryRun`, by the
number of iterations left; `err` and `resp` are the variables of the same role. -/
def createQueryRun.retry (s : Stubs) (req : queryRunRequest) :
    Nat → Option String → Option queryRunResponse → World →
      Out (Option String × Option queryRunResponse)
  | 0, err, resp, w => ⟨(err, resp), [], w⟩
  | n + 1, _, resp, w =>
    let out := s.createQueryRun w.tick req
    let e := Entry.rpcCreateQueryRun req out
    match (callCreateQueryRun out resp).1 with
    | some err =>
      -- time.Sleep(time.Second); continue
      let r := createQueryRun.retry s req n (some err) (callCreateQueryRun out resp).2 w.next
      ⟨r.res, e :: r.log, r.world⟩
    | none =>
      -- break
      ⟨(none, (callCreateQueryRun out resp).2), [e], w.next⟩

/-- The method `createQueryRun`: the query-run id, or the error. -/
def createQueryRun (s : Stubs) (query : String) (w : World) : Out (Res (Reply String)) :=
  let r := createQueryRun.retry s (createQueryRunRequest query) retryTimes none none w
  match r.res.1 with
  | some err => ⟨.ret (.fail err), r.log, r.world⟩
  | none =>
    match r.res.2 with
    | none => ⟨.panic, r.log, r.world⟩
    | some resp =>
      let queryRunID := resp.QueryRequest.QueryRunID
      if queryRunID = "" then ⟨.ret (.fail "query run id is empty"), r.log, r.world⟩
      else ⟨.ret (.done queryRunID), r.log, r.world⟩

/-! ## `queryRunStatus` -/

/-- The loop of `queryRunStatus`, by the number of iterations left.  It yields `some ()`
when it ran to its end or left by `break`, and `none` when it panicked. -/
def queryRunStatus.retry (s : Stubs) (req : queryRunStatusRequest) :
    Nat → Option queryRunStatusResponse → World → Out (Option Unit)
  | 0, _, w => ⟨some (), [], w⟩
  | n + 1, resp, w =>
    let out := s.getQueryRun w.tick req
    let e := Entry.rpcGetQueryRun req out
    let c := callGetQueryRun out resp
    match c.1 with
    | some err =>
      -- the right operand of && is evaluated: getQueryRunResponse_.QueryRun.State
      match c.2 with
      | none => ⟨none, [e], w.next⟩
      | some r =>
        let err : Option String :=
          if r.QueryRun.State ≠ "QUERY_STATE_SUCCESS" then some "query run id is empty"
          else some err
        match err with
        | some _ =>
          -- time.Sleep(time.Second); continue
          let k := queryRunStatus.retry s req n c.2 w.next
          ⟨k.res, e :: k.log, k.world⟩
        | none => ⟨some (), [e], w.next⟩
    | none =>
      -- err == nil: && short-circuits, then break
      ⟨some (), [e], w.next⟩

/-- The method `queryRunStatus`: the error it returns, which is always `nil`. -/
def queryRunStatus (s : Stubs) (queryRunID : String) (w : World) :
    Out (Res (Option String)) :=
  let r := queryRunStatus.retry s { QueryRunId := queryRunID } retryTimes none w
  match r.res with
  | none => ⟨.panic, r.log, r.world⟩
  | some _ => ⟨.ret none, r.log, r.world⟩

/-! ## `queryRunResults` -/

/-- The request `queryRunResultsExactPage` builds. -/
def resultsRequest (queryRunID : String) (page : Int) : queryRunResultsRequest :=
  { QueryRunId := queryRunID, Format := "json", Page := { Number := page, Size := 100000 } }

/-- The method `queryRunResultsExactPage`: one call of getQueryRunResults. -/
def queryRunResultsExactPage (s : Stubs) (queryRunID : String) (page : Int) (w : World) :
    Out (Option queryRunResultsResponse × Option String) :=
  let req := resultsRequest queryRunID page
  let out := s.getQueryRunResults w.tick req
  match (callGetQueryRunResults out).1 with
  | some err => ⟨(none, some err), [Entry.rpcGetQueryRunResults req out], w.next⟩
  | none => ⟨((callGetQueryRunResults out).2, none), [Entry.rpcGetQueryRunResults req out], w.next⟩

/-- The inner loop of `queryRunResults` for one page, by the number of iterations left. -/
def queryRunResults.retry (s : Stubs) (queryRunID : String) (page : Int) :
    Nat → Option queryRunResultsResponse → Option String → World →
      Out (Option queryRunResultsResponse × Option String)
  | 0, resp, err, w => ⟨(resp, err), [], w⟩
  | n + 1, _, _, w =>
    let c := queryRunResultsExactPage s queryRunID page w
    match c.res.2 with
    | some err =>
      let r := queryRunResults.retry s queryRunID page n c.res.1 (some err) c.world
      ⟨r.res, c.log ++ r.log, r.world⟩
    | none => ⟨c.res, c.log, c.world⟩

/-- The outer loop `for page := 1; ; page++` of `queryRunResults`, with a budget of page
iterations; `rows` is the accumulator `queryRunResultsResponseRows`. -/
def queryRunResults.pages (s : Stubs) (queryRunID : String) :
    Nat → Int → List queryRunResultsResponseRow → World →
      Out (Res (Reply (List queryRunResultsResponseRow)))
  | 0, _, _, w => ⟨.outOfFuel, [], w⟩
  | fuel + 1, page, rows, w =>
    let r := queryRunResults.retry s queryRunID page retryTimes
      (some { Rows := [], Page := { CurrentPageNumber := 0, CurrentPageSize := 0,
                                    TotalRows := 0, TotalPages := 0 } }) none w
    match r.res.2 with
    | some err => ⟨.ret (.fail err), r.log, r.world⟩
    | none =>
      match r.res.1 with
      | none => ⟨.panic, r.log, r.world⟩
      | some resp =>
        let rows := rows ++ resp.Rows
        if page = resp.Page.TotalPages then ⟨.ret (.done rows), r.log, r.world⟩
        else
          let k := queryRunResults.pages s queryRunID fuel (wrapInt (page + 1)) rows r.world
          ⟨k.res, r.log ++ k.log, k.world⟩

/-- The method `queryRunResults`: all rows, or the error. -/
def queryRunResults (s : Stubs) (queryRunID : String) (fuel : Nat) (w : World) :
    Out (Res (Reply (List queryRunResultsResponseRow))) :=
  queryRunResults.pages s queryRunID fuel 1 [] w

/-! ## The store operations of `db.go` -/

/-- Statement `SELECT COUNT(*) FROM info WHERE chainID = ?`. -/
def countInfo (db : Database) (chainID : Nat) : Int :=
  ((db.info.filter (fun r => r.ChainID = chainID)).length : Int)

/-- The method `AddressRecords`: the number of records of a chain, or the error. -/
def AddressRecords (s : Stubs) (chainID : Nat) (w : World) : Out (Reply Int) :=
  match s.sqlError w.tick with
  | some err => ⟨.fail err, [Entry.dbAddressRecords chainID (.fail err)], w.next⟩
  | none =>
    ⟨.done (countInfo w.db chainID),
      [Entry.dbAddressRecords chainID (.done (countInfo w.db chainID))], w.next⟩

/-- One execution of `INSERT INTO info ... ON CONFLICT (chainID, address) DO UPDATE SET
name, label, labelType, labelSubtype`. -/
def upsertInfo (info : List AddressRecord) (r : AddressRecord) : List AddressRecord :=
  if info.any (fun x => x.ChainID = r.ChainID ∧ x.Address = r.Address) then
    info.map (fun x => if x.ChainID = r.ChainID ∧ x.Address = r.Address then r else x)
  else info ++ [r]

/-- The loop of `UpsertAddressRecords` over the batch, inside the transaction: the error
of the first statement that fails, the table as the transaction sees it, the counter. -/
def UpsertAddressRecords.exec (s : Stubs) :
    List AddressRecord → List AddressRecord → Nat → Option String × List AddressRecord × Nat
  | [], info, t => (none, info, t)
  | r :: rs, info, t =>
    match s.sqlError t with
    | some err => (some err, info, t + 1)
    | none => UpsertAddressRecords.exec s rs (upsertInfo info r) (t + 1)

/-- The method `UpsertAddressRecords`: begin, prepare, one statement per record, commit;
an error at any of them rolls the transaction back. -/
def UpsertAddressRecords (s : Stubs) (addressRecords : List AddressRecord) (w : World) :
    Out (Option String) :=
  match s.sqlError w.tick with
  | some err =>
    ⟨some err, [Entry.dbUpsertAddressRecords addressRecords (some err)], w.next⟩
  | none =>
    match s.sqlError (w.tick + 1) with
    | some err =>
      ⟨some err, [Entry.dbUpsertAddressRecords addressRecords (some err)], w.next.next⟩
    | none =>
      let x := UpsertAddressRecords.exec s addressRecords w.db.info (w.tick + 2)
      match x.1 with
      | some err =>
        ⟨some err, [Entry.dbUpsertAddressRecords addressRecords (some err)],
          { tick := x.2.2, db := w.db }⟩
      | none =>
        match s.sqlError x.2.2 with
        | some err =>
          ⟨some err, [Entry.dbUpsertAddressRecords addressRecords (some err)],
            { tick := x.2.2 + 1, db := w.db }⟩
        | none =>
          ⟨none, [Entry.dbUpsertAddressRecords addressRecords none],
            { tick := x.2.2 + 1, db := { w.db with info := x.2.1 } }⟩

/-- One execution of `INSERT INTO maintenance ... ON CONFLICT(chainID) DO UPDATE SET
maintenanceTime`. -/
def upsertMaintenance (m : List (Nat × Int)) (chainID : Nat) (t : Int) : List (Nat × Int) :=
  if m.any (fun x => x.1 = chainID) then
    m.map (fun x => if x.1 = chainID then (chainID, t) else x)
  else m ++ [(chainID, t)]

/-- The method `UpdateMaintenanceTime`. -/
def UpdateMaintenanceTime (s : Stubs) (chainID : Nat) (w : World) : Out (Option String) :=
  match s.sqlError w.tick with
  | some err => ⟨some err, [Entry.dbUpdateMaintenanceTime chainID (some err)], w.next⟩
  | none =>
    ⟨none, [Entry.dbUpdateMaintenanceTime chainID none],
      { tick := w.tick + 1,
        db := { w.db with
                maintenance := upsertMaintenance w.db.maintenance chainID (s.now w.tick) } }⟩

/-- The row of table `maintenance` for a chain, if any. -/
def maintenanceRow (db : Database) (chainID : Nat) : Option Int :=
  (db.maintenance.find? (fun x => x.1 = chainID)).map (fun x => x.2)

/-- The method `MaintenanceTime` on a store that answers: 0 when there is no row. -/
def MaintenanceTime (db : Database) (chainID : Nat) : Int :=
  (maintenanceRow db chainID).getD 0

/-! ## `UpdateAsync` -/

/-- How a block of `UpdateAsync` ended: it fell through to the next statement, it left
the function by `return`, it panicked, or the step budget ran out. -/
inductive Flow
  | go
  | stop
  | panic
  | outOfFuel
deriving DecidableEq, Repr

/-- Entries that happened before those of `o`. -/
def Out.after {α : Type} (pre : List Entry) (o : Out α) : Out α :=
  ⟨o.res, pre ++ o.log, o.world⟩

/-- The record built from one row (body of the loop over the rows). -/
def addressRecordOf (s : Stubs) (chainID : Nat) (row : queryRunResultsResponseRow) :
    AddressRecord :=
  let addressRecord : AddressRecord :=
    { ChainID := chainID, Address := s.HexToAddress row.Address, Name := row.AddressName,
      Label := "", LabelType := row.LabelType, LabelSubtype := row.LabelSubtype }
  if row.Label.utf8ByteSize > 0 then { addressRecord with Label := row.Label }
  else if row.ProjectName.utf8ByteSize > 0 then { addressRecord with Label := row.ProjectName }
  else addressRecord

/-- The slice `addressRecords` built from the fetched rows. -/
def buildAddressRecords (s : Stubs) (chainID : Nat)
    (rows : List queryRunResultsResponseRow) : List AddressRecord :=
  rows.map (addressRecordOf s chainID)

/-- The end of the loop body, once the rows are fetched: count, build, upsert, stamp,
report. -/
def UpdateAsync.reconcile (s : Stubs) (chainID : Nat)
    (rows : List queryRunResultsResponseRow) (w : World) : Out Flow :=
  let a := AddressRecords s chainID w
  match a.res with
  | .fail err =>
    ⟨.stop, a.log ++ [Entry.progress ⟨Failed, .failedAddressRecords err chainID⟩], a.world⟩
  | .done lastAddressRecords =>
    let addressRecords := buildAddressRecords s chainID rows
    let u := UpsertAddressRecords s addressRecords a.world
    match u.res with
    | some err =>
      ⟨.stop, a.log ++ u.log ++ [Entry.progress ⟨Failed, .failedUpsert err chainID⟩], u.world⟩
    | none =>
      let m := UpdateMaintenanceTime s chainID u.world
      match m.res with
      | some err =>
        ⟨.stop, a.log ++ u.log ++ m.log ++
          [Entry.progress ⟨Failed, .failedMaintenance err chainID⟩], m.world⟩
      | none =>
        ⟨.go, a.log ++ u.log ++ m.log ++
          [Entry.progress ⟨Successful, .upToDate chainID
            ((addressRecords.length : Int) + lastAddressRecords)
            ((addressRecords.length : Int) - lastAddressRecords)⟩], m.world⟩

/-- The loop body from the call of `queryRunResults` on. -/
def UpdateAsync.fetch (s : Stubs) (fuel : Nat) (queryRunID : String) (chainID : Nat)
    (w : World) : Out Flow :=
  let q := queryRunResults s queryRunID fuel w
  match q.res with
  | .panic => ⟨.panic, q.log, q.world⟩
  | .outOfFuel => ⟨.outOfFuel, q.log, q.world⟩
  | .ret (.fail err) =>
    ⟨.stop, q.log ++ [Entry.progress ⟨Failed, .failedQueryRunResult err queryRunID chainID⟩],
      q.world⟩
  | .ret (.done rows) =>
    (UpdateAsync.reconcile s chainID rows q.world).after
      (q.log ++ [Entry.progress ⟨Updating,
        .queryRunResultsGot (rows.length : Int) queryRunID chainID⟩])

/-- The polling loop `for { select { case <-timeOut: ... default: ... } }`, with a
budget of iterations. -/
def UpdateAsync.poll (s : Stubs) (queryRunID : String) (chainID : Nat) :
    Nat → World → Out Flow
  | 0, w => ⟨.outOfFuel, [], w⟩
  | fuel + 1, w =>
    if s.timeOut w.tick then
      ⟨.stop, [Entry.timer true,
        Entry.progress ⟨Failed, .queryRunTimeOut queryRunID chainID⟩], w.next⟩
    else
      let q := queryRunStatus s queryRunID w.next
      match q.res with
      | .panic => ⟨.panic, Entry.timer false :: q.log, q.world⟩
      | .outOfFuel => ⟨.outOfFuel, Entry.timer false :: q.log, q.world⟩
      | .ret (some _) =>
        -- time.Sleep(1 * time.Second); continue
        (UpdateAsync.poll s queryRunID chainID fuel q.world).after (Entry.timer false :: q.log)
      | .ret none =>
        -- break loop
        ⟨.go, Entry.timer false :: q.log, q.world⟩

/-- The body of the loop over the chains, for one chain. -/
def UpdateAsync.chain (s : Stubs) (fuel : Nat) (chainID : Nat) (w : World) : Out Flow :=
  let e := Entry.progress ⟨Updating, .updatingChain chainID⟩
  let c := createQueryRun s (queriesMap chainID) w
  match c.res with
  | .panic => ⟨.panic, e :: c.log, c.world⟩
  | .outOfFuel => ⟨.outOfFuel, e :: c.log, c.world⟩
  | .ret (.fail err) =>
    ⟨.stop, e :: c.log ++ [Entry.progress ⟨Failed, .failedCreateQueryRun err chainID⟩],
      c.world⟩
  | .ret (.done queryRunID) =>
    let p := UpdateAsync.poll s queryRunID chainID fuel c.world
    match p.res with
    | .go =>
      (UpdateAsync.fetch s fuel queryRunID chainID p.world).after
        (e :: c.log ++ Entry.progress ⟨Updating, .queryRunIdGot queryRunID chainID⟩ :: p.log ++
          [Entry.progress ⟨Updating, .queryRunDone queryRunID chainID⟩])
    | f =>
      ⟨f, e :: c.log ++ Entry.progress ⟨Updating, .queryRunIdGot queryRunID chainID⟩ :: p.log,
        p.world⟩

/-- The loop `for _, chainID := range queriesSlice`, over the chains still to do. -/
def UpdateAsync.chains (s : Stubs) (fuel : Nat) : List Nat → World → Out Flow
  | [], w => ⟨.go, [], w⟩
  | chainID :: rest, w =>
    let r := UpdateAsync.chain s fuel chainID w
    match r.res with
    | .go => (UpdateAsync.chains s fuel rest r.world).after r.log
    | f => ⟨f, r.log, r.world⟩

/-- The background task of `UpdateAsync`: everything it does, in order. -/
def UpdateAsync (s : Stubs) (fuel : Nat) (w : World) : Out Flow :=
  UpdateAsync.chains s fuel queriesSlice w

/-- The progress events among the entries: what is sent on the channel. -/
def events : List Entry → List UpdateProgress
  | [] => []
  | .progress p :: es => p :: events es
  | _ :: es => events es

/-! ## Reading the entries -/

/-- The successful page fetches among the entries, in order: the page number asked for
and the response received. -/
def fetched : List Entry → List (Int × queryRunResultsResponse)
  | [] => []
  | .rpcGetQueryRunResults req (.done r) :: es => (req.Page.Number, r) :: fetched es
  | _ :: es => fetched es

/-- The page numbers of all page requests among the entries, failed attempts included. -/
def requestedPages : List Entry → List Int
  | [] => []
  | .rpcGetQueryRunResults req _ :: es => req.Page.Number :: requestedPages es
  | _ :: es => requestedPages es

/-! ## Concrete collaborators and stores -/

/-- A row that carries both a label and a project name. -/
def rowA : queryRunResultsResponseRow :=
  ⟨"0xab", "hot wallet", "cex", "hot_wallet", "binance", "Binance"⟩

/-- A row that carries a project name only. -/
def rowB : queryRunResultsResponseRow :=
  ⟨"0xcd", "router", "dex", "swap_contract", "", "uniswap"⟩

/-- A row that carries neither. -/
def rowC : queryRunResultsResponseRow :=
  ⟨"0xef", "vault", "defi", "vault", "", ""⟩

/-- Collaborators that answer at once and without error: every job is ready, every
result set is the one page `[rowA]`, the timer never fires, the store never fails. -/
def stubReady : Stubs :=
  { HexToAddress := fun a => if a = "0xab" then 171 else if a = "0xcd" then 205 else 239,
    createQueryRun := fun _ _ => .done ⟨⟨"req", "stmt", "user", "run-1"⟩⟩,
    getQueryRun := fun _ _ => .done ⟨⟨"QUERY_STATE_SUCCESS"⟩⟩,
    getQueryRunResults := fun _ _ => .done ⟨[rowA], ⟨1, 1, 1, 1⟩⟩,
    timeOut := fun _ => false,
    sqlError := fun _ => none,
    now := fun t => 1700000000 + t }

/-- As `stubReady`, but the job is never ready: every status reply says it is running. -/
def stubNeverReady : Stubs :=
  { stubReady with getQueryRun := fun _ _ => .done ⟨⟨"QUERY_STATE_RUNNING"⟩⟩ }

/-- As `stubReady`, but every status call fails in transport. -/
def stubStatusError : Stubs :=
  { stubReady with getQueryRun := fun _ _ => .fail "connection refused" }

/-- As `stubReady`, but the result set is empty: every page reply has no rows and
reports zero pages. -/
def stubNoPages : Stubs :=
  { stubReady with getQueryRunResults := fun _ _ => .done ⟨[], ⟨0, 0, 0, 0⟩⟩ }

/-- As `stubReady`, but the reported total is behind the page asked for: zero pages when
page 1 is asked for, one page at every other request. -/
def stubBehind : Stubs :=
  { stubReady with
    getQueryRunResults := fun _ rq =>
      .done ⟨[], ⟨rq.Page.Number, 0, 0, if rq.Page.Number = 1 then 0 else 1⟩⟩ }

/-- As `stubReady`, but the result set has three pages, `[rowA]`, `[rowB]`, `[rowC]`, and
every call made at an even interaction count fails in transport. -/
def stubThreePages : Stubs :=
  { stubReady with
    getQueryRunResults := fun t rq =>
      if t % 2 = 0 then .fail "timeout"
      else .done ⟨if rq.Page.Number = 1 then [rowA] else if rq.Page.Number = 2 then [rowB]
                  else [rowC], ⟨rq.Page.Number, 1, 3, 3⟩⟩ }

/-- As `stubReady`, but createQueryRun answers with a JSON `null` result. -/
def stubNullRun : Stubs :=
  { stubReady with createQueryRun := fun _ _ => .null }

/-- As `stubReady`, but the first createQueryRun result carries the id run-0 and a member
of the wrong type, and every later result is an object without `queryRunId`. -/
def stubStaleRun : Stubs :=
  { stubReady with
    createQueryRun := fun t _ =>
      if t = 0 then
        .sparse (some "json: cannot unmarshal number into Go struct field of type string")
          ⟨some ⟨none, none, none, some "run-0"⟩⟩
      else .sparse none ⟨some ⟨some "req", none, none, none⟩⟩ }

/-- A fresh store at interaction count zero. -/
def worldEmpty : World := ⟨0, ⟨[], []⟩⟩

/-- A store that already holds the record of address 0xab on chain 1. -/
def worldSeeded : World :=
  ⟨0, ⟨[⟨1, 171, "old name", "old label", "cex", "hot_wallet"⟩], [(1, 1600000000)]⟩⟩

/-! ## Predicates on entries -/

/-- Whether an entry is a progress event. -/
def Entry.isProgress : Entry → Bool
  | .progress _ => true
  | _ => false

/-- Entries without a progress event. -/
def Quiet (es : List Entry) : Prop := ∀ e, e ∈ es → e.isProgress = false

/-- Where the background task stands. -/
inductive TaskAt
  | running
  | closing
  | finished
deriving DecidableEq, Repr

/-- The state of one run and of the second caller. -/
structure Run where
  /-- The lock `updateLock` is held. -/
  locked : Bool
  /-- The counter of `waitGroup`. -/
  waitGroup : Nat
  /-- The events buffered in `updateProgress`, oldest first. -/
  channel : List UpdateProgress
  /-- The channel `updateProgress` is closed. -/
  closed : Bool
  /-- The events the background task has still to send. -/
  toSend : List UpdateProgress
  /-- The position of the background task. -/
  task : TaskAt
  /-- The first goroutine has passed `waitGroup.Wait()` and called `Unlock`. -/
  unlocked : Bool
  /-- The events the consumer has received. -/
  received : List UpdateProgress
  /-- The second call of `UpdateAsync` has returned from `updateLock.Lock()`. -/
  secondIn : Bool
deriving DecidableEq, Repr

/-- The atomic steps. -/
inductive Move
  /-- The task sends its next event; it blocks while the buffer is full. -/
  | send
  /-- The task, having sent everything, runs `close(updateProgress)`. -/
  | close
  /-- The task runs `waitGroup.Done()`. -/
  | done
  /-- The first goroutine returns from `waitGroup.Wait()` and runs `Unlock`. -/
  | unlock
  /-- The consumer receives one event. -/
  | receive
  /-- The second call returns from `updateLock.Lock()`. -/
  | lockSecond
deriving DecidableEq, Repr

/-- The state when `UpdateAsync` returns the channel: lock held, `waitGroup` at 1, the
channel empty and open, the task about to send `evs`. -/
def Run.start (evs : List UpdateProgress) : Run :=
  { locked := true, waitGroup := 1, channel := [], closed := false, toSend := evs,
    task := .running, unlocked := false, received := [], secondIn := false }

/-- One move, when it is enabled. -/
def Run.step (r : Run) : Move → Option Run
  | .send =>
    match r.task, r.toSend with
    | .running, e :: rest =>
      if r.channel.length < 256 then some { r with channel := r.channel ++ [e], toSend := rest }
      else none
    | _, _ => none
  | .close =>
    match r.task, r.toSend with
    | .running, [] => some { r with closed := true, task := .closing }
    | _, _ => none
  | .done =>
    match r.task with
    | .closing => some { r with waitGroup := r.waitGroup - 1, task := .finished }
    | _ => none
  | .unlock =>
    if r.waitGroup = 0 ∧ r.unlocked = false then some { r with locked := false, unlocked := true }
    else none
  | .receive =>
    match r.channel with
    | e :: rest => some { r with channel := rest, received := r.received ++ [e] }
    | [] => none
  | .lockSecond =>
    if r.locked = false ∧ r.secondIn = false then some { r with locked := true, secondIn := true }
    else none

/-- A schedule played from a state: `none` when one of its moves is not enabled. -/
def Run.play (r : Run) : List Move → Option Run
  | [] => some r
  | m :: ms =>
    match r.step m with
    | some r' => r'.play ms
    | none => none

/-- The second call gets the lock only once the consumer has drained the channel. -/
def BlocksUntilDrained (evs : List UpdateProgress) : Prop :=
  ∀ schedule r, (Run.start evs).play schedule = some r → r.secondIn = true →
    r.task = .finished ∧ r.channel = []

/-- The second call gets the lock only once the background task has sent all its
events, closed the channel and called `waitGroup.Done()`. -/
def BlocksUntilFinished (evs : List UpdateProgress) : Prop :=
  ∀ schedule r, (Run.start evs).play schedule = some r → r.secondIn = true →
    r.task = .finished ∧ r.closed = true ∧ r.toSend = []

/-- What holds in every state a schedule can reach. -/
def Run.Inv (r : Run) : Prop :=
  (r.task = .running → r.waitGroup = 1) ∧
  (r.task = .closing → r.waitGroup = 1 ∧ r.closed = true ∧ r.toSend = []) ∧
  (r.task = .finished → r.closed = true ∧ r.toSend = []) ∧
  (0 < r.waitGroup → r.unlocked = false) ∧
  (r.unlocked = false → r.locked = true ∧ r.secondIn = false)

/-- The events of a refresh in which every collaborator answers at once. -/
def eventsReady : List UpdateProgress := events (UpdateAsync stubReady 1 worldEmpty).log

/-! # Properties -/

theorem utf8ByteSize_pos_iff (s : String) : 0 < s.utf8ByteSize ↔ s ≠ "" := by
  cases s with
  | mk cs =>
    cases cs with
    | nil => simp [String.utf8ByteSize, String.utf8ByteSize.go]
    | cons c cs =>
      have hc : 0 < c.utf8Size := Char.utf8Size_pos c
      have : (String.mk (c :: cs)) ≠ "" := by
        intro h
        have := congrArg String.data h
        simp at this
      simp only [String.utf8ByteSize, String.utf8ByteSize.go, ne_eq, this, not_false_eq_true,
        iff_true]
      omega

/-- Label derivation of one record. -/
theorem addressRecordOf_fields (s : Stubs) (chainID : Nat) (row : queryRunResultsResponseRow) :
    (row.Label ≠ "" → (addressRecordOf s chainID row).Label = row.Label) ∧
    (row.Label = "" → row.ProjectName ≠ "" →
      (addressRecordOf s chainID row).Label = row.ProjectName) ∧
    (row.Label = "" → row.ProjectName = "" → (addressRecordOf s chainID row).Label = "") ∧
    (addressRecordOf s chainID row).Name = row.AddressName ∧
    (addressRecordOf s chainID row).LabelType = row.LabelType ∧
    (addressRecordOf s chainID row).LabelSubtype = row.LabelSubtype ∧
    (addressRecordOf s chainID row).ChainID = chainID := by
  have h1 := utf8ByteSize_pos_iff row.Label
  have h2 := utf8ByteSize_pos_iff row.ProjectName
  unfold addressRecordOf
  by_cases hl : row.Label = ""
  · have hl0 : ¬ (row.Label.utf8ByteSize > 0) := fun h => (h1.mp h) hl
    by_cases hp : row.ProjectName = ""
    · have hp0 : ¬ (row.ProjectName.utf8ByteSize > 0) := fun h => (h2.mp h) hp
      simp only [if_neg hl0, if_neg hp0]
      simp [hl, hp]
    · have hp1 : row.ProjectName.utf8ByteSize > 0 := h2.mpr hp
      simp only [if_neg hl0, if_pos hp1]
      simp [hl, hp]
  · have hl1 : row.Label.utf8ByteSize > 0 := h1.mpr hl
    simp only [if_pos hl1]
    simp [hl]

@[simp] theorem World.next_tick (w : World) : w.next.tick = w.tick + 1 := rfl

@[simp] theorem World.next_db (w : World) : w.next.db = w.db := rfl

/-! ### `queryRunStatus` -/

theorem queryRunStatus_of_fail (s : Stubs) (queryRunID : String) (w : World) (e : String)
    (h : s.getQueryRun w.tick { QueryRunId := queryRunID } = .fail e) :
    queryRunStatus s queryRunID w =
      ⟨.panic, [Entry.rpcGetQueryRun { QueryRunId := queryRunID } (.fail e)], w.next⟩ := by
  simp [queryRunStatus, retryTimes, queryRunStatus.retry, h, callGetQueryRun, rpcCall]

theorem queryRunStatus_of_done (s : Stubs) (queryRunID : String) (w : World)
    (r : queryRunStatusResponse)
    (h : s.getQueryRun w.tick { QueryRunId := queryRunID } = .done r) :
    queryRunStatus s queryRunID w =
      ⟨.ret none, [Entry.rpcGetQueryRun { QueryRunId := queryRunID } (.done r)], w.next⟩ := by
  simp [queryRunStatus, retryTimes, queryRunStatus.retry, h, callGetQueryRun, rpcCall]

theorem queryRunResultsExactPage_fail (s : Stubs) (queryRunID : String) (page : Int)
    (w : World) (e : String)
    (h : s.getQueryRunResults w.tick (resultsRequest queryRunID page) = .fail e) :
    queryRunResultsExactPage s queryRunID page w =
      ⟨(none, some e),
        [Entry.rpcGetQueryRunResults (resultsRequest queryRunID page) (.fail e)], w.next⟩ := by
  simp [queryRunResultsExactPage, h, callGetQueryRunResults, Reply.wire, rpcCall]

theorem queryRunResultsExactPage_done (s : Stubs) (queryRunID : String) (page : Int)
    (w : World) (r : queryRunResultsResponse)
    (h : s.getQueryRunResults w.tick (resultsRequest queryRunID page) = .done r) :
    queryRunResultsExactPage s queryRunID page w =
      ⟨(some r, none),
        [Entry.rpcGetQueryRunResults (resultsRequest queryRunID page) (.done r)], w.next⟩ := by
  simp [queryRunResultsExactPage, h, callGetQueryRunResults, Reply.wire, rpcCall]

theorem queryRunResults_retry_fail (s : Stubs) (queryRunID : String) (page : Int) (n : Nat)
    (resp : Option queryRunResultsResponse) (err : Option String) (w : World) (e : String)
    (h : s.getQueryRunResults w.tick (resultsRequest queryRunID page) = .fail e) :
    queryRunResults.retry s queryRunID page (n + 1) resp err w =
      ⟨(queryRunResults.retry s queryRunID page n none (some e) w.next).res,
        Entry.rpcGetQueryRunResults (resultsRequest queryRunID page) (.fail e) ::
          (queryRunResults.retry s queryRunID page n none (some e) w.next).log,
        (queryRunResults.retry s queryRunID page n none (some e) w.next).world⟩ := by
  simp [queryRunResults.retry, queryRunResultsExactPage_fail s queryRunID page w e h]

theorem queryRunResults_retry_done (s : Stubs) (queryRunID : String) (page : Int) (n : Nat)
    (resp : Option queryRunResultsResponse) (err : Option String) (w : World)
    (r : queryRunResultsResponse)
    (h : s.getQueryRunResults w.tick (resultsRequest queryRunID page) = .done r) :
    queryRunResults.retry s queryRunID page (n + 1) resp err w =
      ⟨(some r, none),
        [Entry.rpcGetQueryRunResults (resultsRequest queryRunID page) (.done r)], w.next⟩ := by
  simp [queryRunResults.retry, queryRunResultsExactPage_done s queryRunID page w r h]

theorem wrapInt_of_lt (x : Int) (h0 : -(2 ^ 63) ≤ x) (h1 : x < 2 ^ 63) : wrapInt x = x := by
  unfold wrapInt
  norm_num at h0 h1 ⊢
  omega

/-- One iteration of the page loop when the first attempt succeeds and the reported
total differs from the page number. -/
theorem queryRunResults_pages_step (s : Stubs) (queryRunID : String) (fuel : Nat) (page : Int)
    (rows : List queryRunResultsResponseRow) (w : World) (r : queryRunResultsResponse)
    (h : s.getQueryRunResults w.tick (resultsRequest queryRunID page) = .done r)
    (hne : page ≠ r.Page.TotalPages) :
    queryRunResults.pages s queryRunID (fuel + 1) page rows w =
      ⟨(queryRunResults.pages s queryRunID fuel (wrapInt (page + 1)) (rows ++ r.Rows) w.next).res,
        Entry.rpcGetQueryRunResults (resultsRequest queryRunID page) (.done r) ::
          (queryRunResults.pages s queryRunID fuel (wrapInt (page + 1)) (rows ++ r.Rows)
            w.next).log,
        (queryRunResults.pages s queryRunID fuel (wrapInt (page + 1)) (rows ++ r.Rows)
          w.next).world⟩ := by
  have hr := queryRunResults_retry_done s queryRunID page 9
    (some { Rows := [], Page := { CurrentPageNumber := 0, CurrentPageSize := 0,
                                  TotalRows := 0, TotalPages := 0 } }) none w r h
  have hr' : queryRunResults.retry s queryRunID page retryTimes _ none w = _ := hr
  rw [queryRunResults.pages]
  simp only [hr', if_neg hne]
  rfl

/-- A remote whose replies never report the page just requested as the total keeps the
page loop going whatever the budget. -/
theorem queryRunResults_pages_never (s : Stubs) (queryRunID : String)
    (h : ∀ t rq, ∃ r, s.getQueryRunResults t rq = .done r ∧ rq.Page.Number ≠ r.Page.TotalPages) :
    ∀ (fuel : Nat) (page : Int) (rows : List queryRunResultsResponseRow) (w : World),
      (queryRunResults.pages s queryRunID fuel page rows w).res = .outOfFuel ∧
      (queryRunResults.pages s queryRunID fuel page rows w).log.length = fuel := by
  intro fuel
  induction fuel with
  | zero => intro page rows w; exact ⟨rfl, rfl⟩
  | succ fuel ih =>
    intro page rows w
    obtain ⟨r, hr, hne⟩ := h w.tick (resultsRequest queryRunID page)
    rw [queryRunResults_pages_step s queryRunID fuel page rows w r hr hne]
    have := ih (wrapInt (page + 1)) (rows ++ r.Rows) w.next
    exact ⟨this.1, by simp [this.2]⟩

/-- A remote that always reports zero pages keeps the page loop going until the page
counter overflows. -/
theorem queryRunResults_pages_zero (s : Stubs) (queryRunID : String)
    (h : ∀ t rq, ∃ r, s.getQueryRunResults t rq = .done r ∧ r.Page.TotalPages = 0) :
    ∀ (fuel : Nat) (page : Int) (rows : List queryRunResultsResponseRow) (w : World),
      1 ≤ page → page + fuel ≤ 2 ^ 63 →
      (queryRunResults.pages s queryRunID fuel page rows w).res = .outOfFuel ∧
      (queryRunResults.pages s queryRunID fuel page rows w).log.length = fuel := by
  intro fuel
  induction fuel with
  | zero => intro page rows w _ _; exact ⟨rfl, rfl⟩
  | succ fuel ih =>
    intro page rows w h1 h2
    obtain ⟨r, hr, hz⟩ := h w.tick (resultsRequest queryRunID page)
    have hne : page ≠ r.Page.TotalPages := by rw [hz]; omega
    rw [queryRunResults_pages_step s queryRunID fuel page rows w r hr hne]
    cases fuel with
    | zero => exact ⟨rfl, rfl⟩
    | succ fuel =>
      have hw : wrapInt (page + 1) = page + 1 := by
        apply wrapInt_of_lt
        · have : (0 : Int) ≤ 2 ^ 63 := by norm_num
          omega
        · push_cast at h2
          omega
      rw [hw]
      have := ih (page + 1) (rows ++ r.Rows) w.next (by omega) (by push_cast at h2 ⊢; omega)
      exact ⟨this.1, by simp [this.2]⟩

theorem fetched_append (a b : List Entry) : fetched (a ++ b) = fetched a ++ fetched b := by
  induction a with
  | nil => rfl
  | cons e a ih =>
    cases e with
    | rpcGetQueryRunResults req out =>
      cases out with
      | fail err => simpa [fetched] using ih
      | done r => simp [fetched, ih]
    | _ => simpa [fetched] using ih

theorem requestedPages_append (a b : List Entry) :
    requestedPages (a ++ b) = requestedPages a ++ requestedPages b := by
  induction a with
  | nil => rfl
  | cons e a ih => cases e <;> simp [requestedPages, ih]

/-- The retry loop for one page when one of the attempts in the budget succeeds. -/
theorem queryRunResults_retry_ok (s : Stubs) (queryRunID : String) (page : Int) :
    ∀ (n : Nat) (resp : Option queryRunResultsResponse) (err : Option String) (w : World),
      (∃ j, j < n ∧
        (s.getQueryRunResults (w.tick + j) (resultsRequest queryRunID page)).isDone = true) →
      ∃ r t, s.getQueryRunResults t (resultsRequest queryRunID page) = .done r ∧
        (queryRunResults.retry s queryRunID page n resp err w).res = (some r, none) ∧
        fetched (queryRunResults.retry s queryRunID page n resp err w).log = [(page, r)] ∧
        ∀ x, x ∈ requestedPages (queryRunResults.retry s queryRunID page n resp err w).log →
          x = page := by
  intro n
  induction n with
  | zero => intro _ _ _ ⟨j, hj, _⟩; omega
  | succ n ih =>
    intro resp err w ⟨j, hj, hdone⟩
    cases h0 : s.getQueryRunResults w.tick (resultsRequest queryRunID page) with
    | done r =>
      refine ⟨r, w.tick, h0, ?_⟩
      rw [queryRunResults_retry_done s queryRunID page n resp err w r h0]
      simp [fetched, requestedPages, resultsRequest]
    | fail e =>
      have hj0 : j ≠ 0 := by
        intro hz
        subst hz
        simp only [Nat.add_zero] at hdone
        rw [h0] at hdone
        simp [Reply.isDone] at hdone
      obtain ⟨r, t, hr, hres, hf, hp⟩ := ih none (some e) w.next
        ⟨j - 1, by omega, by
          have : w.next.tick + (j - 1) = w.tick + j := by simp only [World.next_tick]; omega
          rw [this]; exact hdone⟩
      refine ⟨r, t, hr, ?_⟩
      rw [queryRunResults_retry_fail s queryRunID page n resp err w e h0]
      refine ⟨hres, ?_, ?_⟩
      · simpa [fetched] using hf
      · intro x hx
        simp only [requestedPages, List.mem_cons] at hx
        rcases hx with hx | hx
        · rw [hx]; rfl
        · exact hp x hx

/-- The page loop from page `p` on, for a remote that serves every page up to `N` within
the retry budget and always reports `N` pages. -/
theorem queryRunResults_pages_ok (s : Stubs) (queryRunID : String) (N : Nat)
    (hN : (N : Int) < 2 ^ 63)
    (hpage : ∀ t (p : Nat), 1 ≤ p → p ≤ N → ∃ j, j < retryTimes ∧
      (s.getQueryRunResults (t + j) (resultsRequest queryRunID (p : Int))).isDone = true)
    (htotal : ∀ t rq r, s.getQueryRunResults t rq = .done r → r.Page.TotalPages = (N : Int)) :
    ∀ (fuel p : Nat) (rows : List queryRunResultsResponseRow) (w : World),
      1 ≤ p → p ≤ N → N - p < fuel →
      (queryRunResults.pages s queryRunID fuel (p : Int) rows w).res =
        .ret (.done (rows ++
          (fetched (queryRunResults.pages s queryRunID fuel (p : Int) rows w).log).flatMap
            (fun x => x.2.Rows))) ∧
      (fetched (queryRunResults.pages s queryRunID fuel (p : Int) rows w).log).map (fun x => x.1) =
        (List.range' p (N + 1 - p)).map (fun i => (i : Int)) ∧
      ∀ x, x ∈ requestedPages (queryRunResults.pages s queryRunID fuel (p : Int) rows w).log →
        (p : Int) ≤ x ∧ x ≤ (N : Int) := by
  intro fuel
  induction fuel with
  | zero => intro p rows w _ _ h; omega
  | succ fuel ih =>
    intro p rows w h1 h2 h3
    obtain ⟨r, t, hr, hres, hf, hp⟩ := queryRunResults_retry_ok s queryRunID (p : Int) retryTimes
      (some { Rows := [], Page := { CurrentPageNumber := 0, CurrentPageSize := 0,
                                    TotalRows := 0, TotalPages := 0 } }) none w
      (hpage w.tick p h1 h2)
    have htot := htotal t _ r hr
    rw [queryRunResults.pages]
    simp only [hres]
    by_cases hpn : p = N
    · have heq : (p : Int) = r.Page.TotalPages := by rw [htot, hpn]
      simp only [if_pos heq, hf]
      refine ⟨by simp, ?_, ?_⟩
      · subst hpn
        have : p + 1 - p = 1 := by omega
        simp [this]
      · intro x hx
        have := hp x hx
        subst hpn
        omega
    · have hne : ¬ ((p : Int) = r.Page.TotalPages) := by
        rw [htot]; intro h; exact hpn (by exact_mod_cast h)
      have hw : wrapInt ((p : Int) + 1) = ((p + 1 : Nat) : Int) := by
        rw [wrapInt_of_lt]
        · push_cast; rfl
        · have : (0 : Int) ≤ 2 ^ 63 := by norm_num
          omega
        · omega
      simp only [if_neg hne, hw]
      obtain ⟨k1, k2, k3⟩ := ih (p + 1) (rows ++ r.Rows)
        (queryRunResults.retry s queryRunID (p : Int) retryTimes
          (some { Rows := [], Page := { CurrentPageNumber := 0, CurrentPageSize := 0,
                                        TotalRows := 0, TotalPages := 0 } }) none w).world
        (by omega) (by omega) (by omega)
      refine ⟨?_, ?_, ?_⟩
      · rw [k1, fetched_append, hf]
        simp
      · rw [fetched_append, hf, List.map_append, k2]
        have : N + 1 - p = (N + 1 - (p + 1)) + 1 := by omega
        rw [this, List.range'_succ]
        simp
      · intro x hx
        rw [requestedPages_append, List.mem_append] at hx
        rcases hx with hx | hx
        · have := hp x hx
          omega
        · have := k3 x hx
          omega

/-! ### Failure events -/

theorem quiet_append {a b : List Entry} (ha : Quiet a) (hb : Quiet b) : Quiet (a ++ b) := by
  intro e he
  rcases List.mem_append.mp he with h | h
  · exact ha e h
  · exact hb e h

theorem quiet_nil : Quiet [] := by
  intro e he
  cases he

theorem quiet_singleton {e : Entry} (h : e.isProgress = false) : Quiet [e] := by
  intro x hx
  rw [List.mem_singleton.mp hx]
  exact h

/-- C1: for every fetched row, the record the reconciliation step of `UpdateAsync` builds
from it has the row's label when that is not empty, else the row's project name when that
is not empty, else the empty label; name, label type and label subtype are the row's, and
the chain is the chain being refreshed. -/
theorem label_derivation (s : Stubs) (chainID : Nat) (rows : List queryRunResultsResponseRow) :
    List.Forall₂
      (fun row record =>
        (row.Label ≠ "" → record.Label = row.Label) ∧
        (row.Label = "" → row.ProjectName ≠ "" → record.Label = row.ProjectName) ∧
        (row.Label = "" → row.ProjectName = "" → record.Label = "") ∧
        record.Name = row.AddressName ∧
        record.LabelType = row.LabelType ∧
        record.LabelSubtype = row.LabelSubtype ∧
        record.ChainID = chainID)
      rows (buildAddressRecords s chainID rows) := by
  unfold buildAddressRecords
  rw [List.forall₂_map_right_iff, List.forall₂_same]
  intro row _
  exact addressRecordOf_fields s chainID row

/-! ## Results of `createQueryRun` -/

/-- C7, the code at a JSON `null` result: the call returns no error and leaves the
response pointer nil, `createQueryRun` reads the id through it and panics after that one
call, and so does the run of `UpdateAsync`.  And the code at a result without an id that
follows a result decoded in part: the id of the failed reply is still in the object,
and `createQueryRun` returns it without error. -/
theorem createQueryRun_null_and_stale :
    createQueryRun stubNullRun "q" worldEmpty =
        ⟨.panic, [Entry.rpcCreateQueryRun (createQueryRunRequest "q") .null],
          worldEmpty.next⟩ ∧
      (UpdateAsync stubNullRun 1 worldEmpty).res = .panic ∧
      (createQueryRun stubStaleRun "q" worldEmpty).res = .ret (.done "run-0") ∧
      (createQueryRun stubStaleRun "q" worldEmpty).log =
        [Entry.rpcCreateQueryRun (createQueryRunRequest "q")
           (.sparse (some "json: cannot unmarshal number into Go struct field of type string")
             ⟨some ⟨none, none, none, some "run-0"⟩⟩),
         Entry.rpcCreateQueryRun (createQueryRunRequest "q")
           (.sparse none ⟨some ⟨some "req", none, none, none⟩⟩)] := by
  refine ⟨rfl, by decide, by decide, by decide⟩

/-! ## Pagination -/

/-- C2: let the remote serve each of the pages `1..N` within the ten attempts of the
retry budget, whenever it is asked, and report `N` pages in every response (`N ≥ 1`, and
below `2 ^ 63` as a Go `int` is).  Then, given a budget of at least `N` page iterations,
`queryRunResults` returns without error; the pages it has fetched successfully are
`1, 2, ..., N`, each once and in this order; what it returns is the concatenation of the
rows of these responses; and it requests no page outside `1..N`. -/
theorem queryRunResults_accumulates (s : Stubs) (queryRunID : String) (N fuel : Nat)
    (w : World) (hN1 : 1 ≤ N) (hN : (N : Int) < 2 ^ 63)
    (hpage : ∀ t (p : Nat), 1 ≤ p → p ≤ N → ∃ j, j < retryTimes ∧
      (s.getQueryRunResults (t + j) (resultsRequest queryRunID (p : Int))).isDone = true)
    (htotal : ∀ t rq r, s.getQueryRunResults t rq = .done r → r.Page.TotalPages = (N : Int))
    (hfuel : N ≤ fuel) :
    (queryRunResults s queryRunID fuel w).res =
        .ret (.done ((fetched (queryRunResults s queryRunID fuel w).log).flatMap
          (fun x => x.2.Rows))) ∧
      (fetched (queryRunResults s queryRunID fuel w).log).map (fun x => x.1) =
        (List.range' 1 N).map (fun i => (i : Int)) ∧
      ∀ x, x ∈ requestedPages (queryRunResults s queryRunID fuel w).log →
        1 ≤ x ∧ x ≤ (N : Int) := by
  have h := queryRunResults_pages_ok s queryRunID N hN hpage htotal fuel 1 [] w (le_refl 1) hN1
    (by omega)
  unfold queryRunResults
  have hc : ((1 : Nat) : Int) = 1 := rfl
  rw [hc] at h
  refine ⟨by simpa using h.1, ?_, ?_⟩
  · have : N + 1 - 1 = N := by omega
    rw [h.2.1, this]
  · intro x hx
    exact h.2.2 x hx

theorem stubThreePages_serves (t : Nat) (p : Nat) :
    ∃ j, j < retryTimes ∧
      (stubThreePages.getQueryRunResults (t + j) (resultsRequest "run-1" (p : Int))).isDone =
        true := by
  by_cases h : t % 2 = 0
  · refine ⟨1, by decide, ?_⟩
    have : ¬ ((t + 1) % 2 = 0) := by omega
    simp [stubThreePages, this, Reply.isDone]
  · refine ⟨0, by decide, ?_⟩
    simp [stubThreePages, h, Reply.isDone]

/-- C2 at a concrete remote: three pages, every second call failing. -/
theorem queryRunResults_accumulates_example :
    (queryRunResults stubThreePages "run-1" 3 worldEmpty).res =
        .ret (.done ((fetched (queryRunResults stubThreePages "run-1" 3 worldEmpty).log).flatMap
          (fun x => x.2.Rows))) ∧
      (fetched (queryRunResults stubThreePages "run-1" 3 worldEmpty).log).map (fun x => x.1) =
        (List.range' 1 3).map (fun i => (i : Int)) ∧
      ∀ x, x ∈ requestedPages (queryRunResults stubThreePages "run-1" 3 worldEmpty).log →
        1 ≤ x ∧ x ≤ ((3 : Nat) : Int) :=
  queryRunResults_accumulates stubThreePages "run-1" 3 3 worldEmpty (by decide) (by norm_num)
    (fun t p _ _ => stubThreePages_serves t p)
    (fun t rq r h => by
      simp only [stubThreePages] at h
      split at h
      · cases h
      · cases h; rfl)
    (le_refl 3)


/-! ## Termination of the page loop -/

/-- C10, the code at an empty result set: with every page reply reporting zero pages,
`queryRunResults` has still not returned after any number of page requests below
`2 ^ 63` (the test `page == TotalPages` can only hold once the page counter has wrapped
round to 0); and with the reported total behind the page asked for (`stubBehind`), it
does not return after any number of page requests at all. -/
theorem queryRunResults_runs_on :
    (∀ fuel : Nat, (fuel : Int) < 2 ^ 63 →
      (queryRunResults stubNoPages "run-1" fuel worldEmpty).res = .outOfFuel ∧
      (queryRunResults stubNoPages "run-1" fuel worldEmpty).log.length = fuel) ∧
    (∀ fuel : Nat,
      (queryRunResults stubBehind "run-1" fuel worldEmpty).res = .outOfFuel ∧
      (queryRunResults stubBehind "run-1" fuel worldEmpty).log.length = fuel) := by
  constructor
  · intro fuel hfuel
    exact queryRunResults_pages_zero stubNoPages "run-1"
      (fun _ _ => ⟨_, rfl, rfl⟩) fuel 1 [] worldEmpty (le_refl 1) (by omega)
  · intro fuel
    refine queryRunResults_pages_never stubBehind "run-1" (fun t rq => ⟨_, rfl, ?_⟩) fuel 1 []
      worldEmpty
    show rq.Page.Number ≠ (if rq.Page.Number = 1 then 0 else 1)
    split <;> omega

/-! ## The status check -/

/-- C9, the code at a transport error of the first status call: `queryRunStatus` reads
the state through the response pointer that is still nil and panics, and so does the run
of `UpdateAsync` that called it, right after that one call. -/
theorem queryRunStatus_panics :
    queryRunStatus stubStatusError "run-1" worldEmpty =
        ⟨.panic, [Entry.rpcGetQueryRun ⟨"run-1"⟩ (.fail "connection refused")],
          worldEmpty.next⟩ ∧
      (UpdateAsync stubStatusError 1 worldEmpty).res = .panic ∧
      (UpdateAsync stubStatusError 1 worldEmpty).log.getLast? =
        some (Entry.rpcGetQueryRun ⟨"run-1"⟩ (.fail "connection refused")) := by
  refine ⟨queryRunStatus_of_fail stubStatusError "run-1" worldEmpty "connection refused" rfl,
    by decide, by decide⟩

/-- C3, the code at a job that is never ready: the first status reply, which says the
job is running, ends the polling; the run emits no failure event, fetches the results,
upserts them, stamps the maintenance time of chain 1 and goes on to the other chains. -/
theorem never_ready_job_is_fetched :
    (UpdateAsync.chain stubNeverReady 1 1 worldEmpty).res = .go ∧
      (UpdateAsync.chain stubNeverReady 1 1 worldEmpty).log =
        [Entry.progress ⟨Updating, .updatingChain 1⟩,
         Entry.rpcCreateQueryRun (createQueryRunRequest (queriesMap 1))
           (.done ⟨⟨"req", "stmt", "user", "run-1"⟩⟩),
         Entry.progress ⟨Updating, .queryRunIdGot "run-1" 1⟩,
         Entry.timer false,
         Entry.rpcGetQueryRun ⟨"run-1"⟩ (.done ⟨⟨"QUERY_STATE_RUNNING"⟩⟩),
         Entry.progress ⟨Updating, .queryRunDone "run-1" 1⟩,
         Entry.rpcGetQueryRunResults (resultsRequest "run-1" 1) (.done ⟨[rowA], ⟨1, 1, 1, 1⟩⟩),
         Entry.progress ⟨Updating, .queryRunResultsGot 1 "run-1" 1⟩,
         Entry.dbAddressRecords 1 (.done 0),
         Entry.dbUpsertAddressRecords [⟨1, 171, "hot wallet", "binance", "cex", "hot_wallet"⟩]
           none,
         Entry.dbUpdateMaintenanceTime 1 none,
         Entry.progress ⟨Successful, .upToDate 1 1 1⟩] ∧
      (UpdateAsync stubNeverReady 1 worldEmpty).res = .go ∧
      (∀ p, p ∈ events (UpdateAsync stubNeverReady 1 worldEmpty).log → p.Status ≠ Failed) ∧
      MaintenanceTime (UpdateAsync stubNeverReady 1 worldEmpty).world.db 1 = 1700000009 := by
  refine ⟨by decide, rfl, by decide, by decide, by decide⟩

/-- C6, the code at a store that already holds the fetched address: the success event
of chain 1 reports 2 records, and the store holds 1 record for chain 1 after the run. -/
theorem records_figure_counts_overwrites :
    Entry.progress ⟨Successful, .upToDate 1 2 0⟩ ∈ (UpdateAsync stubReady 1 worldSeeded).log ∧
      (AddressRecords stubReady 1 (UpdateAsync stubReady 1 worldSeeded).world).res = .done 1 ∧
      (UpdateAsync stubReady 1 worldSeeded).world.db.info =
        [⟨1, 171, "hot wallet", "binance", "cex", "hot_wallet"⟩,
         ⟨56, 171, "hot wallet", "binance", "cex", "hot_wallet"⟩,
         ⟨8453, 171, "hot wallet", "binance", "cex", "hot_wallet"⟩] := by
  refine ⟨by decide, by decide, by decide⟩

/-! ## Failure stops the run -/

theorem inv_start (evs : List UpdateProgress) : (Run.start evs).Inv := by
  simp [Run.Inv, Run.start]

theorem inv_step (r r' : Run) (m : Move) (h : r.Inv) (hs : r.step m = some r') : r'.Inv := by
  obtain ⟨h1, h2, h3, h4, h5⟩ := h
  cases m with
  | send =>
    simp only [Run.step] at hs
    split at hs
    · rename_i ht hl
      split at hs
      · cases hs
        simp only [Run.Inv]
        simp [ht] at h1 ⊢
        exact ⟨h1, h4, h5⟩
      · cases hs
    · cases hs
  | close =>
    simp only [Run.step] at hs
    split at hs
    · rename_i ht hl
      cases hs
      simp only [Run.Inv]
      simp [ht] at h1 ⊢
      exact ⟨⟨h1, hl⟩, h4, h5⟩
    · cases hs
  | done =>
    simp only [Run.step] at hs
    split at hs
    · rename_i ht
      cases hs
      simp only [Run.Inv]
      have := h2 ht
      simp [this] at h5 ⊢
      exact h5
    · cases hs
  | unlock =>
    simp only [Run.step] at hs
    split at hs
    · rename_i hc
      cases hs
      simp only [Run.Inv]
      refine ⟨h1, h2, h3, ?_, ?_⟩
      · intro hw; omega
      · intro hu; cases hu
    · cases hs
  | receive =>
    simp only [Run.step] at hs
    split at hs
    · cases hs
      exact ⟨h1, h2, h3, h4, h5⟩
    · cases hs
  | lockSecond =>
    simp only [Run.step] at hs
    split at hs
    · rename_i hc
      cases hs
      simp only [Run.Inv]
      refine ⟨h1, h2, h3, h4, ?_⟩
      intro hu
      have := (h5 hu).1
      rw [hc.1] at this
      cases this
    · cases hs

theorem inv_play : ∀ (schedule : List Move) (r r' : Run), r.Inv →
    r.play schedule = some r' → r'.Inv := by
  intro schedule
  induction schedule with
  | nil =>
    intro r r' h hp
    simp only [Run.play, Option.some.injEq] at hp
    rw [← hp]; exact h
  | cons m ms ih =>
    intro r r' h hp
    simp only [Run.play] at hp
    split at hp
    · rename_i r1 hs
      exact ih r1 r' (inv_step r r1 m h hs) hp
    · cases hp

/-- C8 as stated fails: in the refresh where every collaborator answers at once, the task
sends its 15 events, closes the channel and calls `waitGroup.Done()`, the first goroutine
unlocks, and the second call gets the lock while the consumer has received nothing. -/
theorem second_call_before_drain : ¬ BlocksUntilDrained eventsReady := by
  intro h
  have hplay : (Run.start eventsReady).play
      (List.replicate 15 Move.send ++ [Move.close, Move.done, Move.unlock, Move.lockSecond]) =
      some { locked := true, waitGroup := 0, channel := eventsReady, closed := true,
             toSend := [], task := .finished, unlocked := true, received := [],
             secondIn := true } := by
    decide
  have := (h _ _ hplay rfl).2
  revert this
  decide

/-- C8 as amended: whatever the events of the run and whatever the schedule, the second
call of `UpdateAsync` gets the lock only when the background task of the first has sent
all its events, closed the channel and called `waitGroup.Done()`: not merely after the
close, and without waiting for the consumer. -/
theorem second_call_after_task (evs : List UpdateProgress) : BlocksUntilFinished evs := by
  intro schedule r hp hsec
  obtain ⟨h1, h2, h3, h4, h5⟩ := inv_play schedule _ r (inv_start evs) hp
  have hu : r.unlocked = true := by
    cases hun : r.unlocked with
    | true => rfl
    | false =>
      have := (h5 hun).2
      rw [hsec] at this
      cases this
  have hw : ¬ 0 < r.waitGroup := by
    intro hw
    have := h4 hw
    rw [hu] at this
    cases this
  cases ht : r.task with
  | running => exact absurd (by rw [h1 ht]; decide) hw
  | closing => exact absurd (by rw [(h2 ht).1]; decide) hw
  | finished => exact ⟨rfl, h3 ht⟩

/-- C8 as amended, at a concrete schedule: the consumer receives two events while the
task is sending, and the second call gets the lock after the task has finished. -/
theorem second_call_after_task_example :
    ∃ r, (Run.start eventsReady).play
        ([Move.send, Move.send, Move.receive, Move.receive] ++ List.replicate 13 Move.send ++
          [Move.close, Move.done, Move.unlock, Move.lockSecond]) = some r ∧
      r.secondIn = true ∧ r.task = .finished ∧ r.closed = true ∧ r.toSend = [] :=
  ⟨{ locked := true, waitGroup := 0, channel := eventsReady.drop 2, closed := true,
     toSend := [], task := .finished, unlocked := true, received := eventsReady.take 2,
     secondIn := true },
    by decide, rfl,
    second_call_after_task eventsReady
      ([Move.send, Move.send, Move.receive, Move.receive] ++ List.replicate 13 Move.send ++
        [Move.close, Move.done, Move.unlock, Move.lockSecond]) _ (by decide) rfl⟩

end AddressInf0DB
